import Mathlib

/-!
Shallow embedding of the construction-materials bot core
(schemas/models.py, chains/extraction.py, chains/classification.py,
chains/orchestrator.py, rag/vectore_store.py) and proofs of the spec's
claims about it.

Conventions: Python `Optional[str]` becomes `Option String`; Python
truthiness of an optional string (`None` and `""` are falsy) is
`truthyOpt`; a Pydantic model instance is always truthy, so `if model:`
on an `Optional[Model]` is a match on the `Option`.  Code that raises is
modelled with `Except`/`Option` results.  External collaborators (the
LLM completion calls, the Qdrant client, the text splitter, the
sentence-transformer embedder, md5) are passed in as parameters.
-/

/-! ## Data model (src/schemas/models.py) -/

/-- models.py `DeliveryInfo`: optional delivery address and date. -/
structure DeliveryInfo where
  address : Option String := none
  date : Option String := none
deriving DecidableEq, Repr

/-- models.py `ProductCharacteristics`: optional mark, fraction and an
additional product type refinement. -/
structure ProductCharacteristics where
  mark : Option String := none
  fraction : Option String := none
  product_type : Option String := none
deriving DecidableEq, Repr

/-- models.py `OrderSpecs`: the partial order specification; every field
is independently optional. -/
structure OrderSpecs where
  product_type : Option String := none
  quantity : Option String := none
  characteristics : Option ProductCharacteristics := none
  delivery : Option DeliveryInfo := none
deriving DecidableEq, Repr

/-- Python truthiness of an `Optional[str]` value: `None` and `""` are
falsy, every other string is truthy. -/
def truthyOpt : Option String → Bool
  | none => false
  | some s => !(s == "")

/-- models.py `OrderSpecs.is_complete` (lines 27-34): all of
`product_type`, `quantity`, `characteristics` and `characteristics.mark`
must be non-`None` (the code tests `is not None`, not truthiness). -/
def OrderSpecs.is_complete (s : OrderSpecs) : Bool :=
  s.product_type.isSome && s.quantity.isSome &&
    (match s.characteristics with
     | none => false
     | some c => c.mark.isSome)

/-- models.py `OrderSpecs.get_missing_fields` (lines 36-45): the code
tests `if not self.product_type` etc., i.e. Python truthiness, so a
field holding the empty string also counts as missing; `not
self.characteristics` is true exactly when `characteristics` is `None`
(a Pydantic model instance is always truthy). -/
def OrderSpecs.get_missing_fields (s : OrderSpecs) : List String :=
  (if !truthyOpt s.product_type then ["product_type"] else []) ++
  (if !truthyOpt s.quantity then ["quantity"] else []) ++
  (if (match s.characteristics with
       | none => true
       | some c => !truthyOpt c.mark) then ["characteristics.mark"] else [])

/-- Leaf accessor markOf: the value of the leaf field `characteristics.mark`,
`none` when `characteristics` itself is `None`. -/
def markOf (s : OrderSpecs) : Option String :=
  Option.bind s.characteristics ProductCharacteristics.mark

/-- Leaf accessor fractionOf: the leaf field `characteristics.fraction`. -/
def fractionOf (s : OrderSpecs) : Option String :=
  Option.bind s.characteristics ProductCharacteristics.fraction

/-- Leaf accessor addressOf: the leaf field `delivery.address`. -/
def addressOf (s : OrderSpecs) : Option String :=
  Option.bind s.delivery DeliveryInfo.address

/-- Leaf accessor dateOf: the leaf field `delivery.date`. -/
def dateOf (s : OrderSpecs) : Option String :=
  Option.bind s.delivery DeliveryInfo.date

/-! ## Extraction and merge (src/chains/extraction.py) -/

/-- Python's `x if x is not None else y` on optionals, the merge rule
extraction.py applies to each top-level leaf (lines 104-105). -/
def pyCoalesce {α : Type} : Option α → Option α → Option α
  | some v, _ => some v
  | none, e => e

/-- extraction.py lines 111-126, one nested leaf: `inc.f if (inc and
inc.f is not None) else (ex.f if ex else None)` for a sub-record field
`f` of the incoming (`inc`) and existing (`ex`) optional sub-records. -/
def mergedSubField {β : Type} (f : β → Option String) (inc ex : Option β) : Option String :=
  match inc with
  | some c =>
    match f c with
    | some v => some v
    | none => (match ex with | some x => f x | none => none)
  | none => (match ex with | some x => f x | none => none)

/-- extraction.py lines 102-137: merge of the freshly `extracted` specs
with the `existing` session specs — each top-level leaf coalesces, and
`characteristics`/`delivery` are rebuilt field-by-field whenever either
side has the sub-record (lines 108-127), else left `None`. -/
def mergeSpecs (extracted existing : OrderSpecs) : OrderSpecs :=
  { product_type := pyCoalesce extracted.product_type existing.product_type,
    quantity := pyCoalesce extracted.quantity existing.quantity,
    characteristics :=
      if extracted.characteristics.isSome || existing.characteristics.isSome then
        some { mark := mergedSubField ProductCharacteristics.mark
                 extracted.characteristics existing.characteristics,
               fraction := mergedSubField ProductCharacteristics.fraction
                 extracted.characteristics existing.characteristics,
               product_type := mergedSubField ProductCharacteristics.product_type
                 extracted.characteristics existing.characteristics }
      else none,
    delivery :=
      if extracted.delivery.isSome || existing.delivery.isSome then
        some { address := mergedSubField DeliveryInfo.address
                 extracted.delivery existing.delivery,
               date := mergedSubField DeliveryInfo.date
                 extracted.delivery existing.delivery }
      else none }

/-- extraction.py `ExtractionChain.extract` (lines 53-145), with the
structured-output LLM call externalized: `parsed = some b` when the
chain returned a schema-valid `OrderSpecs` value `b`, `none` when it
raised.  On success the result is merged with the existing specs when
any exist (lines 102-139); on failure the code returns the existing
specs, or empty `OrderSpecs()` when there are none (lines 140-145). -/
def ExtractionChain.extract (parsed : Option OrderSpecs) (existing : Option OrderSpecs) : OrderSpecs :=
  match parsed with
  | some extracted =>
    match existing with
    | some ex => mergeSpecs extracted ex
    | none => extracted
  | none =>
    match existing with
    | some ex => ex
    | none => {}

/-- The claim C1's side condition on the incoming spec `B`: only the
leaf `characteristics.fraction` is set, every other leaf is absent. -/
def onlyFractionSet (B : OrderSpecs) : Prop :=
  B.product_type = none ∧ B.quantity = none ∧ B.delivery = none ∧
    markOf B = none ∧ Option.bind B.characteristics ProductCharacteristics.product_type = none ∧
    fractionOf B ≠ none

/-- An optional string that is either absent or a non-empty string (the
precondition under which `is not None` and Python truthiness agree). -/
def noneOrNonempty (o : Option String) : Prop :=
  o = none ∨ ∃ s, o = some s ∧ s ≠ ""

/-! ## Classification (src/chains/classification.py) -/

/-- Does the character list `n` occur contiguously in the second list?
(Helper for `containsSub`.) -/
def containsSubAux (n : List Char) : List Char → Bool
  | [] => n.isEmpty
  | c :: rest => List.isPrefixOf n (c :: rest) || containsSubAux n rest

/-- Python's `needle in hay` substring test. -/
def containsSub (hay needle : String) : Bool :=
  containsSubAux needle.data hay.data

/-- Python `str.lower()` restricted to the alphabets this code touches:
ASCII letters and the Cyrillic range А-Я / Ё used by the prompts and
keyword lists.  Other characters are unchanged. -/
def pyLowerChar (c : Char) : Char :=
  if 65 ≤ c.toNat ∧ c.toNat ≤ 90 then Char.ofNat (c.toNat + 32)
  else if 0x410 ≤ c.toNat ∧ c.toNat ≤ 0x42F then Char.ofNat (c.toNat + 0x20)
  else if c.toNat = 0x401 then Char.ofNat 0x451
  else c

/-- Python `str.lower()` (see `pyLowerChar`). -/
def pyLower (s : String) : String := ⟨s.data.map pyLowerChar⟩

/-- Python `str.strip()`: drop whitespace from both ends. -/
def pyStrip (s : String) : String :=
  ⟨((s.data.dropWhile Char.isWhitespace).reverse.dropWhile Char.isWhitespace).reverse⟩

/-- classification.py line 67: the ordering keywords of the default
fallback branch. -/
def orderingKeywords : List String :=
  ["нужен", "нужно", "хочу", "заказать", "купить", "мне нужно", "требуется"]

/-- classification.py lines 66-70: the deterministic keyword fallback on
the query text, used when the classifier output matches no marker. -/
def keywordFallback (query : String) : String :=
  if orderingKeywords.any (fun kw => containsSub (pyLower query) kw) then
    "order_specification"
  else "informational"

/-- classification.py line 58: `result = result.strip().lower()`. -/
def normalizedResult (rawOut : String) : String := pyLower (pyStrip rawOut)

/-- classification.py `ClassificationChain.classify` (lines 45-70), with
the LLM call externalized as its raw output `rawOut`: strip and lower
the output, look for the markers of each label, and otherwise fall back
to `keywordFallback` on the query. -/
def ClassificationChain.classify (rawOut : String) (query : String) : String :=
  if containsSub (normalizedResult rawOut) "informational"
      || containsSub (normalizedResult rawOut) "информационный" then
    "informational"
  else if containsSub (normalizedResult rawOut) "order_specification"
      || containsSub (normalizedResult rawOut) "спецификация"
      || containsSub (normalizedResult rawOut) "заказ" then
    "order_specification"
  else
    keywordFallback query

/-- The five substrings classification.py recognizes in the classifier
output before falling back to the query keywords. -/
def recognizedMarkers : List String :=
  ["informational", "информационный", "order_specification", "спецификация", "заказ"]

/-- True when the stripped, lowered classifier output contains none of
the recognized markers, i.e. when the code reaches the keyword
fallback. -/
def noMarker (rawOut : String) : Bool :=
  recognizedMarkers.all (fun m => !containsSub (normalizedResult rawOut) m)

/-! ## Orchestrator (src/chains/orchestrator.py) -/

/-- models.py `UserQuery`: the message and its session id. -/
structure UserQuery where
  message : String
  session_id : String
deriving DecidableEq, Repr

/-- models.py `BotResponse`: message, clarification flag, optionally the
extracted specs, and the query type label. -/
structure BotResponse where
  message : String
  needs_clarification : Bool
  extracted_specs : Option OrderSpecs
  query_type : String
deriving DecidableEq, Repr

/-- orchestrator.py `_get_specs` (line 57): `self.session_specs.get(session_id)`
on the session store, here an association list. -/
def lookupSpecs : List (String × OrderSpecs) → String → Option OrderSpecs
  | [], _ => none
  | (k, v) :: rest, sid => if k = sid then some v else lookupSpecs rest sid

/-- orchestrator.py `_store_specs` (line 61):
`self.session_specs[session_id] = specs` — replace the binding if the
key is present, append it otherwise. -/
def storeSpecs : List (String × OrderSpecs) → String → OrderSpecs → List (String × OrderSpecs)
  | [], sid, v => [(sid, v)]
  | (k, w) :: rest, sid, v =>
    if k = sid then (sid, v) :: rest else (k, w) :: storeSpecs rest sid v

/-- The outcomes of one turn's external calls, as `OrchestratorChain.process`
consumes them: the raw classifier output, the result of `query_rag`
(`Except.error` when it raised), the structured extraction output
(`none` when it raised), and the response-text collaborators
`generate_question` and `_format_products_response ∘ get_products`. -/
structure TurnCalls where
  classifierOut : String
  ragResult : Except String String
  parsedSpecs : Option OrderSpecs
  clarify : OrderSpecs → List String → String
  fulfill : OrderSpecs → String

/-- orchestrator.py line 92: the apology message built when `query_rag`
raises, with the exception's text interpolated. -/
def ragApology (e : String) : String :=
  "Извините, произошла ошибка при поиске информации: " ++ e

/-- orchestrator.py `OrchestratorChain.process` (lines 63-139): classify;
on `informational` answer from RAG, catching any retrieval error into an
apology; otherwise extract (merging with this session's stored specs),
store the merged specs back, and either ask a clarifying question (specs
incomplete) or return the formatted product listing (specs complete).
Returns the response together with the updated session-spec store. -/
def OrchestratorChain.process (calls : TurnCalls) (store : List (String × OrderSpecs))
    (q : UserQuery) : BotResponse × List (String × OrderSpecs) :=
  let query_type := ClassificationChain.classify calls.classifierOut q.message
  if query_type = "informational" then
    match calls.ragResult with
    | Except.ok ragResponse =>
      ({ message := ragResponse, needs_clarification := false,
         extracted_specs := none, query_type := "informational" }, store)
    | Except.error e =>
      ({ message := ragApology e, needs_clarification := false,
         extracted_specs := none, query_type := "informational" }, store)
  else
    let existing := lookupSpecs store q.session_id
    let extracted := ExtractionChain.extract calls.parsedSpecs existing
    let store2 := storeSpecs store q.session_id extracted
    if extracted.is_complete = false then
      ({ message := calls.clarify extracted extracted.get_missing_fields,
         needs_clarification := true, extracted_specs := some extracted,
         query_type := "order_specification" }, store2)
    else
      ({ message := calls.fulfill extracted, needs_clarification := false,
         extracted_specs := some extracted, query_type := "order_specification" }, store2)

/-! ## Vector store (src/rag/vectore_store.py) -/

/-- One parsed record of the ingestion JSONL input (the fields
vectore_store.py reads; each is absent when the JSON lacks the key). -/
structure DocRecord where
  url : Option String := none
  content : Option String := none
  error : Option String := none
  timestamp : Option Int := none
deriving DecidableEq, Repr

/-- vectore_store.py `VectorStore.load_documents` (lines 106-124) with
the file reading and JSON parsing externalized: `records` holds the
parsed record of each non-blank line, and the code keeps a record iff
`doc.get('content') and not doc.get('error')` — content truthy and
error falsy in the Python sense. -/
def VectorStore.load_documents (records : List DocRecord) : List DocRecord :=
  records.filter (fun d => truthyOpt d.content && !truthyOpt d.error)

/-- The payload stored with each chunk (vectore_store.py lines 182-189). -/
structure ChunkPayload where
  url : String
  timestamp : Int
  chunk_index : Nat
  doc_index : Nat
  text : String
  original_content_length : Nat
deriving DecidableEq, Repr

/-- One Qdrant point: content-addressed id, embedding vector (of the
abstract embedding type `V`) and payload (vectore_store.py lines 191-197). -/
structure IndexPoint (V : Type) where
  id : Nat
  vector : V
  payload : ChunkPayload
deriving DecidableEq, Repr

/-- The value of one lowercase hex digit, as Python `int(s, 16)` reads it. -/
def hexDigitVal (c : Char) : Nat :=
  if 48 ≤ c.toNat ∧ c.toNat ≤ 57 then c.toNat - 48
  else if 97 ≤ c.toNat ∧ c.toNat ≤ 102 then c.toNat - 87
  else if 65 ≤ c.toNat ∧ c.toNat ≤ 70 then c.toNat - 55
  else 0

/-- Python `int(s, 16)` on a hex-digit string. -/
def hexToNat (s : String) : Nat :=
  s.foldl (fun a c => a * 16 + hexDigitVal c) 0

/-- vectore_store.py lines 179-180: the content-addressed point id,
derived from `(url, doc_index, chunk_index, md5(text)[:8])` by hashing
the combined string and keeping the first 15 hex digits.  `md5hex` is
the external `hashlib.md5(...).hexdigest()`. -/
def pointId (md5hex : String → String) (url : String) (docIdx chunkIdx : Nat)
    (chunk : String) : Nat :=
  let uniqueIdString :=
    url ++ "_" ++ toString docIdx ++ "_" ++ toString chunkIdx ++ "_" ++ (md5hex chunk).take 8
  hexToNat ((md5hex uniqueIdString).take 15)

/-- vectore_store.py `VectorStore.add_documents` (lines 151-198), the
pure part: filter the records, enumerate documents and their chunks
(`split` is the external text splitter, `embed` the external embedder
applied to each chunk of the batch), and build the list of points with
content-addressed ids.  Documents with falsy content are skipped
(line 166-167). -/
def VectorStore.build_points {V : Type} (split : String → List String) (embed : String → V)
    (md5hex : String → String) (records : List DocRecord) : List (IndexPoint V) :=
  let documents := VectorStore.load_documents records
  (documents.enum.map (fun de =>
    let docIdx := de.1
    let d := de.2
    let content := d.content.getD ""
    if content = "" then []
    else
      let chunks := split content
      chunks.enum.map (fun ce =>
        let chunkIdx := ce.1
        let chunk := ce.2
        { id := pointId md5hex (d.url.getD "") docIdx chunkIdx chunk,
          vector := embed chunk,
          payload := { url := d.url.getD "", timestamp := d.timestamp.getD 0,
                       chunk_index := chunkIdx, doc_index := docIdx, text := chunk,
                       original_content_length := content.length } }))).flatten

/-- True when the store already holds a point with id `i`. -/
def hasId {V : Type} (store : List (IndexPoint V)) (i : Nat) : Bool :=
  store.any (fun e => e.id == i)

/-- Modelled from the spec: the external Qdrant client's `upsert` for a
single point — "inserts new entries or overwrites entries whose `id`
already exists" (§4.3); an existing entry is overwritten in place, a new
id is appended. -/
def upsertOne {V : Type} (store : List (IndexPoint V)) (p : IndexPoint V) :
    List (IndexPoint V) :=
  if hasId store p.id then
    store.map (fun e => if e.id == p.id then p else e)
  else store ++ [p]

/-- Modelled from the spec: the external Qdrant client's `upsert` of a
batch of points, applied in order (last writer wins within a batch). -/
def upsertPoints {V : Type} (store : List (IndexPoint V)) (ps : List (IndexPoint V)) :
    List (IndexPoint V) :=
  ps.foldl upsertOne store

/-- vectore_store.py `VectorStore.add_documents` end to end: build the
points from the JSONL records and upsert them into the store. -/
def VectorStore.add_documents {V : Type} (split : String → List String) (embed : String → V)
    (md5hex : String → String) (records : List DocRecord) (store : List (IndexPoint V)) :
    List (IndexPoint V) :=
  upsertPoints store (VectorStore.build_points split embed md5hex records)

/-- Overwrite every stored point whose id matches `p` (the in-place
branch of `upsertOne`). -/
def overwritePoint {V : Type} (store : List (IndexPoint V)) (p : IndexPoint V) :
    List (IndexPoint V) :=
  store.map (fun e => if e.id == p.id then p else e)

/-- The last point of `ps` carrying id `i`, if any (the winner of a
batch upsert for that id). -/
def lastWithId {V : Type} : List (IndexPoint V) → Nat → Option (IndexPoint V)
  | [], _ => none
  | p :: ps, i =>
    match lastWithId ps i with
    | some q => some q
    | none => if p.id == i then some p else none

/-- Replace a point by the winner of the batch for its id, when the
batch mentions that id at all. -/
def resolveLast {V : Type} (ps : List (IndexPoint V)) (e : IndexPoint V) : IndexPoint V :=
  match lastWithId ps e.id with
  | some q => q
  | none => e

/-! ## Concrete inputs used by witnesses and counterexamples -/

/-- A concrete existing spec with a known mark, for the merge witness. -/
def specWithMark : OrderSpecs :=
  { product_type := some "бетон", quantity := none,
    characteristics := some { mark := some "М300", fraction := none, product_type := none },
    delivery := none }

/-- A concrete incoming spec with only `characteristics.fraction` set. -/
def specOnlyFraction : OrderSpecs :=
  { product_type := none, quantity := none,
    characteristics := some { mark := none, fraction := some "20-40", product_type := none },
    delivery := none }

/-- The spec of the completeness example: бетон, 5 кубов, М300. -/
def specComplete : OrderSpecs :=
  { product_type := some "бетон", quantity := some "5 кубов",
    characteristics := some { mark := some "М300", fraction := none, product_type := none },
    delivery := none }

/-- The spec of the incompleteness example: only product_type бетон. -/
def specOnlyProduct : OrderSpecs :=
  { product_type := some "бетон", quantity := none,
    characteristics := none, delivery := none }

/-- A spec whose `product_type` is set to the empty string: non-`None`,
yet Python-falsy. -/
def specEmptyProduct : OrderSpecs :=
  { product_type := some "", quantity := some "5 кубов",
    characteristics := some { mark := some "М300", fraction := none, product_type := none },
    delivery := none }

/-- A JSONL record whose `error` field is the empty string: non-null,
yet Python-falsy. -/
def recordEmptyError : DocRecord :=
  { url := some "https://example.com/beton", content := some "Бетон М300 — тяжёлый бетон.",
    error := some "", timestamp := some 1700000000 }

/-- Concrete collaborator outcomes for the informational-failure witness. -/
def callsRagDown : TurnCalls :=
  { classifierOut := "informational", ragResult := Except.error "index unreachable",
    parsedSpecs := none, clarify := fun _ _ => "", fulfill := fun _ => "" }

/-- Concrete collaborator outcomes for the order-specification witness:
the classifier output matches no marker, extraction raised. -/
def callsOrderFailed : TurnCalls :=
  { classifierOut := "???", ragResult := Except.ok "",
    parsedSpecs := none, clarify := fun _ missing => String.intercalate ", " missing,
    fulfill := fun _ => "" }

/-! ## Theorems -/

/-- The nested merge rule coalesces: the incoming sub-leaf wins exactly
when it is non-null. -/
theorem mergedSubField_eq {β : Type} (f : β → Option String) (inc ex : Option β) :
    mergedSubField f inc ex = pyCoalesce (Option.bind inc f) (Option.bind ex f) := by
  cases inc with
  | none => cases ex <;> rfl
  | some c =>
    cases h : f c with
    | none => cases ex <;> simp [mergedSubField, pyCoalesce, h]
    | some v => simp [mergedSubField, pyCoalesce, h]

/-- C1: merging existing `A` with incoming `B` that has only
`characteristics.fraction` set preserves `A`'s `characteristics.mark`;
and in general every listed leaf of the merge is the incoming leaf when
it is non-null and the existing leaf otherwise (field-by-field on the
nested records). -/
theorem merge_field_by_field (A B : OrderSpecs) :
    (onlyFractionSet B → markOf (mergeSpecs B A) = markOf A) ∧
    (mergeSpecs B A).product_type = pyCoalesce B.product_type A.product_type ∧
    (mergeSpecs B A).quantity = pyCoalesce B.quantity A.quantity ∧
    markOf (mergeSpecs B A) = pyCoalesce (markOf B) (markOf A) ∧
    fractionOf (mergeSpecs B A) = pyCoalesce (fractionOf B) (fractionOf A) ∧
    addressOf (mergeSpecs B A) = pyCoalesce (addressOf B) (addressOf A) ∧
    dateOf (mergeSpecs B A) = pyCoalesce (dateOf B) (dateOf A) := by
  obtain ⟨ap, aq, ac, ad⟩ := A
  obtain ⟨bp, bq, bc, bd⟩ := B
  have hmark : markOf (mergeSpecs ⟨bp, bq, bc, bd⟩ ⟨ap, aq, ac, ad⟩) =
      pyCoalesce (markOf ⟨bp, bq, bc, bd⟩) (markOf ⟨ap, aq, ac, ad⟩) := by
    cases bc <;> cases ac <;>
      simp [mergeSpecs, markOf, mergedSubField_eq, pyCoalesce]
  refine ⟨?_, ?_, ?_, hmark, ?_, ?_, ?_⟩
  · intro h
    rw [hmark, h.2.2.2.1]
    rfl
  · cases bp <;> rfl
  · cases bq <;> rfl
  · cases bc <;> cases ac <;>
      simp [mergeSpecs, fractionOf, mergedSubField_eq, pyCoalesce]
  · cases bd <;> cases ad <;>
      simp [mergeSpecs, addressOf, mergedSubField_eq, pyCoalesce]
  · cases bd <;> cases ad <;>
      simp [mergeSpecs, dateOf, mergedSubField_eq, pyCoalesce]

/-- C1 witness: at the concrete pair, the merge keeps the mark М300. -/
theorem merge_field_by_field_witness :
    markOf (mergeSpecs specOnlyFraction specWithMark) = markOf specWithMark :=
  (merge_field_by_field specWithMark specOnlyFraction).1 (by
    refine ⟨rfl, rfl, rfl, rfl, rfl, ?_⟩
    decide)

/-- C2: `is_complete` is true exactly when `product_type`, `quantity`
and `characteristics.mark` are all set (non-None); in particular it is
true for {бетон, 5 кубов, mark М300} and false for {бетон} alone, with
fraction and delivery playing no role. -/
theorem is_complete_iff (s : OrderSpecs) :
    (s.is_complete = true ↔
      s.product_type ≠ none ∧ s.quantity ≠ none ∧ markOf s ≠ none) ∧
    specComplete.is_complete = true ∧
    specOnlyProduct.is_complete = false := by
  refine ⟨?_, by decide, by decide⟩
  obtain ⟨p, q, c, d⟩ := s
  cases c with
  | none => simp [OrderSpecs.is_complete, markOf]
  | some ch =>
    simp [OrderSpecs.is_complete, markOf, Option.isSome_iff_ne_none, and_assoc]

/-- C3 counterexample: with `product_type` set to the empty string — a
set, non-None value — the code still lists "product_type" as missing,
so the names do not appear "exactly when the corresponding field is
unset". -/
theorem get_missing_fields_cex :
    OrderSpecs.get_missing_fields specEmptyProduct = ["product_type"] ∧
    specEmptyProduct.product_type ≠ none := by decide

/-- C3 amended: `get_missing_fields` enumerates a sublist of the fixed
stable order [product_type, quantity, characteristics.mark]; each name
appears exactly when the corresponding field is Python-falsy (None or
the empty string; for the mark, when `characteristics` is None or its
`mark` is falsy).  On {product_type := "бетон"} it returns exactly
["quantity", "characteristics.mark"]. -/
theorem get_missing_fields_spec (s : OrderSpecs) :
    s.get_missing_fields.Sublist ["product_type", "quantity", "characteristics.mark"] ∧
    ("product_type" ∈ s.get_missing_fields ↔ truthyOpt s.product_type = false) ∧
    ("quantity" ∈ s.get_missing_fields ↔ truthyOpt s.quantity = false) ∧
    ("characteristics.mark" ∈ s.get_missing_fields ↔ truthyOpt (markOf s) = false) ∧
    OrderSpecs.get_missing_fields specOnlyProduct = ["quantity", "characteristics.mark"] := by
  refine ⟨?_, ?_, ?_, ?_, by decide⟩ <;>
    obtain ⟨p, q, c, d⟩ := s <;>
    [skip;
     cases hp : truthyOpt p <;> cases hq : truthyOpt q <;> skip;
     cases hp : truthyOpt p <;> cases hq : truthyOpt q <;> skip;
     skip] <;>
    cases c <;>
    first
      | (rename_i ch
         cases hm : truthyOpt ch.mark <;>
           (try cases hp : truthyOpt p) <;> (try cases hq : truthyOpt q) <;>
           simp_all [OrderSpecs.get_missing_fields, markOf] <;> decide)
      | ((try cases hp : truthyOpt p) <;> (try cases hq : truthyOpt q) <;>
         simp_all [OrderSpecs.get_missing_fields, markOf] <;> decide)

/-- Under the None-or-non-empty precondition, truthiness agrees with
`isSome`. -/
theorem truthyOpt_eq_isSome (o : Option String) (h : noneOrNonempty o) :
    truthyOpt o = o.isSome := by
  rcases h with h | ⟨s, rfl, hs⟩
  · subst h; rfl
  · simp [truthyOpt, hs]

/-- C9: for specs whose `product_type`, `quantity` and
`characteristics.mark` are each None or a non-empty string,
`is_complete` holds exactly when `get_missing_fields` is empty. -/
theorem complete_iff_no_missing (s : OrderSpecs)
    (h1 : noneOrNonempty s.product_type) (h2 : noneOrNonempty s.quantity)
    (h3 : noneOrNonempty (markOf s)) :
    s.is_complete = true ↔ s.get_missing_fields = [] := by
  obtain ⟨p, q, c, d⟩ := s
  have e1 := truthyOpt_eq_isSome p h1
  have e2 := truthyOpt_eq_isSome q h2
  cases c with
  | none =>
    simp [OrderSpecs.is_complete, OrderSpecs.get_missing_fields, e1, e2]
  | some ch =>
    have e3 := truthyOpt_eq_isSome ch.mark (by simpa [markOf] using h3)
    cases hp : p.isSome <;> cases hq : q.isSome <;> cases hm : ch.mark.isSome <;>
      simp_all [OrderSpecs.is_complete, OrderSpecs.get_missing_fields, e1, e2, e3]

/-- C9 witness: the complete concrete spec satisfies the precondition
and both sides of the equivalence. -/
theorem complete_iff_no_missing_witness :
    specComplete.is_complete = true ↔ specComplete.get_missing_fields = [] :=
  complete_iff_no_missing specComplete
    (Or.inr ⟨"бетон", rfl, by decide⟩)
    (Or.inr ⟨"5 кубов", rfl, by decide⟩)
    (Or.inr ⟨"М300", rfl, by decide⟩)

/-- Storing a session's specs makes them what lookup returns for that
session id. -/
theorem lookupSpecs_storeSpecs (st : List (String × OrderSpecs)) (sid : String)
    (v : OrderSpecs) : lookupSpecs (storeSpecs st sid v) sid = some v := by
  induction st with
  | nil => simp [storeSpecs, lookupSpecs]
  | cons kv rest ih =>
    obtain ⟨k, w⟩ := kv
    by_cases h : k = sid <;> simp [storeSpecs, lookupSpecs, h, ih]

/-- Merging with an empty incoming partial spec changes nothing. -/
theorem mergeSpecs_empty (ex : OrderSpecs) : mergeSpecs {} ex = ex := by
  obtain ⟨p, q, c, d⟩ := ex
  cases c <;> cases d <;> rfl

/-- C5: when the structured extraction call fails on an order turn, the
result equals the previously merged specs, which is exactly the merge of
those specs with the empty partial spec; the orchestrator returns it and
stores it back, so no previously merged field is lost and the turn is
not aborted. -/
theorem extraction_failure_atomic (ex : OrderSpecs) (calls : TurnCalls)
    (store : List (String × OrderSpecs)) (q : UserQuery)
    (hfail : calls.parsedSpecs = none)
    (horder : ClassificationChain.classify calls.classifierOut q.message ≠ "informational")
    (hex : lookupSpecs store q.session_id = some ex) :
    ExtractionChain.extract none (some ex) = mergeSpecs {} ex ∧
    mergeSpecs {} ex = ex ∧
    (OrchestratorChain.process calls store q).1.extracted_specs = some ex ∧
    lookupSpecs (OrchestratorChain.process calls store q).2 q.session_id = some ex := by
  refine ⟨(mergeSpecs_empty ex).symm, mergeSpecs_empty ex, ?_⟩
  simp only [OrchestratorChain.process, if_neg horder, hfail, hex]
  show (if (ExtractionChain.extract none (some ex)).is_complete = false then _ else _ :
      BotResponse × List (String × OrderSpecs)).1.extracted_specs = some ex ∧ _
  have hres : ExtractionChain.extract none (some ex) = ex := rfl
  rw [hres]
  split <;> simp [lookupSpecs_storeSpecs]

/-- C5 witness: a session holding specWithMark, an order-classified
message and a failed extraction keep specWithMark intact. -/
theorem extraction_failure_atomic_witness :
    ExtractionChain.extract none (some specWithMark) = mergeSpecs {} specWithMark ∧
    mergeSpecs {} specWithMark = specWithMark ∧
    (OrchestratorChain.process callsOrderFailed [("s1", specWithMark)]
        ⟨"хочу бетон", "s1"⟩).1.extracted_specs = some specWithMark ∧
    lookupSpecs (OrchestratorChain.process callsOrderFailed [("s1", specWithMark)]
        ⟨"хочу бетон", "s1"⟩).2 "s1" = some specWithMark :=
  extraction_failure_atomic specWithMark callsOrderFailed [("s1", specWithMark)]
    ⟨"хочу бетон", "s1"⟩ rfl (by decide) (by decide)

/-- C6: on an informational classification, a retrieval failure is
caught locally: process returns the apology BotResponse (a normal
return, so nothing escapes on this path) and leaves the session store
untouched. -/
theorem retrieval_failure_nonfatal (calls : TurnCalls) (store : List (String × OrderSpecs))
    (q : UserQuery) (e : String)
    (hclass : ClassificationChain.classify calls.classifierOut q.message = "informational")
    (herr : calls.ragResult = Except.error e) :
    OrchestratorChain.process calls store q =
      ({ message := ragApology e, needs_clarification := false,
         extracted_specs := none, query_type := "informational" }, store) := by
  simp [OrchestratorChain.process, hclass, herr]

/-- C6 witness: with the classifier answering "informational" and the
RAG call raising "index unreachable", process returns the apology. -/
theorem retrieval_failure_nonfatal_witness :
    OrchestratorChain.process callsRagDown [] ⟨"что такое бетон?", "s1"⟩ =
      ({ message := ragApology "index unreachable", needs_clarification := false,
         extracted_specs := none, query_type := "informational" }, []) :=
  retrieval_failure_nonfatal callsRagDown [] ⟨"что такое бетон?", "s1"⟩
    "index unreachable" (by decide) rfl

/-- classify can only ever produce the two labels. -/
theorem classify_two_labels (rawOut query : String) :
    ClassificationChain.classify rawOut query = "informational" ∨
    ClassificationChain.classify rawOut query = "order_specification" := by
  unfold ClassificationChain.classify keywordFallback
  cases containsSub (normalizedResult rawOut) "informational" <;>
    cases containsSub (normalizedResult rawOut) "информационный" <;>
    cases containsSub (normalizedResult rawOut) "order_specification" <;>
    cases containsSub (normalizedResult rawOut) "спецификация" <;>
    cases containsSub (normalizedResult rawOut) "заказ" <;>
    cases orderingKeywords.any (fun kw => containsSub (pyLower query) kw) <;>
    simp

/-- C7 counterexample: the raw classifier output "заказ" contains
neither of the two recognized labels, yet classify returns
order_specification from its marker branch while the keyword fallback
on the query "привет" would return informational — so the result is not
resolved by the fallback. -/
theorem classify_fallback_cex :
    containsSub (normalizedResult "заказ") "informational" = false ∧
    containsSub (normalizedResult "заказ") "order_specification" = false ∧
    ClassificationChain.classify "заказ" "привет" = "order_specification" ∧
    keywordFallback "привет" = "informational" := by decide

/-- C7 amended: classify always returns one of exactly the two labels,
and whenever the stripped, lowered classifier output contains none of
the five recognized markers (the two labels and the Russian markers
"информационный", "спецификация", "заказ") the result is the
deterministic keyword fallback on the query text; it is a total
function, so no error is surfaced. -/
theorem classify_total_and_fallback (rawOut query : String) :
    (ClassificationChain.classify rawOut query = "informational" ∨
      ClassificationChain.classify rawOut query = "order_specification") ∧
    (noMarker rawOut = true →
      ClassificationChain.classify rawOut query = keywordFallback query) := by
  refine ⟨classify_two_labels rawOut query, fun h => ?_⟩
  simp only [noMarker, recognizedMarkers, List.all_cons, List.all_nil,
    Bool.and_eq_true, Bool.not_eq_true'] at h
  obtain ⟨h1, h2, h3, h4, h5, -⟩ := h
  simp [ClassificationChain.classify, h1, h2, h3, h4, h5]

/-- C7 amended witness: at an unrecognized output and an ordering query
the classification equals the fallback, which is order_specification. -/
theorem classify_total_and_fallback_witness :
    (ClassificationChain.classify "???" "хочу бетон" = "informational" ∨
      ClassificationChain.classify "???" "хочу бетон" = "order_specification") ∧
    (noMarker "???" = true →
      ClassificationChain.classify "???" "хочу бетон" = keywordFallback "хочу бетон") :=
  classify_total_and_fallback "???" "хочу бетон"

/-- C10: the response asks for clarification exactly when the query was
classified order_specification and the merged specs are incomplete;
informational responses never carry specs or ask for clarification; and
an order_specification response carries the merged specs, which are
exactly what the session store then holds for that session id. -/
theorem process_invariants (calls : TurnCalls) (store : List (String × OrderSpecs))
    (q : UserQuery) :
    ((OrchestratorChain.process calls store q).1.needs_clarification = true ↔
      (ClassificationChain.classify calls.classifierOut q.message = "order_specification" ∧
        (ExtractionChain.extract calls.parsedSpecs
          (lookupSpecs store q.session_id)).is_complete = false)) ∧
    (ClassificationChain.classify calls.classifierOut q.message = "informational" →
      (OrchestratorChain.process calls store q).1.needs_clarification = false ∧
      (OrchestratorChain.process calls store q).1.extracted_specs = none ∧
      (OrchestratorChain.process calls store q).1.query_type = "informational") ∧
    (ClassificationChain.classify calls.classifierOut q.message = "order_specification" →
      (OrchestratorChain.process calls store q).1.extracted_specs =
        some (ExtractionChain.extract calls.parsedSpecs (lookupSpecs store q.session_id)) ∧
      lookupSpecs (OrchestratorChain.process calls store q).2 q.session_id =
        some (ExtractionChain.extract calls.parsedSpecs (lookupSpecs store q.session_id)) ∧
      (OrchestratorChain.process calls store q).1.query_type = "order_specification") := by
  rcases classify_two_labels calls.classifierOut q.message with hc | hc
  · cases hr : calls.ragResult <;>
      simp [OrchestratorChain.process, hc, hr]
  · have hni : ClassificationChain.classify calls.classifierOut q.message ≠ "informational" := by
      rw [hc]; decide
    simp only [OrchestratorChain.process, if_neg hni]
    cases hcomp : (ExtractionChain.extract calls.parsedSpecs
        (lookupSpecs store q.session_id)).is_complete <;>
      simp [hc, hcomp, lookupSpecs_storeSpecs]

/-- Truthiness of an optional string, spelled out. -/
theorem truthyOpt_true_iff (o : Option String) :
    truthyOpt o = true ↔ ∃ s, o = some s ∧ s ≠ "" := by
  cases o with
  | none => simp [truthyOpt]
  | some s => simp [truthyOpt]

/-- Falsiness of an optional string, spelled out. -/
theorem truthyOpt_false_iff (o : Option String) :
    truthyOpt o = false ↔ o = none ∨ o = some "" := by
  cases o with
  | none => simp [truthyOpt]
  | some s => simp [truthyOpt]

/-- C8 counterexample: a record whose `error` field is the empty string
— non-null — and whose content is non-empty is kept by load_documents,
though the claim says every record with a non-null error is skipped. -/
theorem load_documents_cex :
    VectorStore.load_documents [recordEmptyError] = [recordEmptyError] ∧
    recordEmptyError.error ≠ none := by decide

/-- C8 amended: a record is included exactly when its content is present
and non-empty and its error is Python-falsy — null/absent or the empty
string; everything else is skipped silently (a pure filter, no error is
raised). -/
theorem load_documents_filter (records : List DocRecord) (d : DocRecord) :
    d ∈ VectorStore.load_documents records ↔
      d ∈ records ∧ (∃ s, d.content = some s ∧ s ≠ "") ∧
        (d.error = none ∨ d.error = some "") := by
  simp only [VectorStore.load_documents, List.mem_filter, Bool.and_eq_true,
    Bool.not_eq_true', truthyOpt_true_iff, truthyOpt_false_iff, and_assoc]

/-- Overwriting a point in place keeps every entry's id. -/
theorem overwrite_keeps_id {V : Type} (p e : IndexPoint V) (i : Nat) :
    ((if e.id == p.id then p else e).id == i) = (e.id == i) := by
  by_cases h : e.id = p.id
  · simp [h]
  · simp [h]

/-- Overwriting in place never changes the set of stored ids. -/
theorem hasId_overwritePoint {V : Type} (store : List (IndexPoint V)) (p : IndexPoint V)
    (i : Nat) : hasId (overwritePoint store p) i = hasId store i := by
  induction store with
  | nil => rfl
  | cons e rest ih =>
    simp only [overwritePoint, hasId, List.map_cons, List.any_cons] at ih ⊢
    rw [overwrite_keeps_id, ih]

/-- When the id is already stored, upsert is the in-place overwrite. -/
theorem upsertOne_eq_overwrite {V : Type} (store : List (IndexPoint V)) (p : IndexPoint V)
    (h : hasId store p.id = true) : upsertOne store p = overwritePoint store p := by
  simp [upsertOne, overwritePoint, h]

/-- After upserting `p`, its id is stored. -/
theorem hasId_upsertOne_self {V : Type} (store : List (IndexPoint V)) (p : IndexPoint V) :
    hasId (upsertOne store p) p.id = true := by
  by_cases h : hasId store p.id = true
  · rw [upsertOne_eq_overwrite store p h, hasId_overwritePoint]; exact h
  · unfold upsertOne
    rw [if_neg h]
    simp [hasId, List.any_append]

/-- Upserting never removes a stored id. -/
theorem hasId_upsertOne_mono {V : Type} (store : List (IndexPoint V)) (p : IndexPoint V)
    (i : Nat) (h : hasId store i = true) : hasId (upsertOne store p) i = true := by
  by_cases hp : hasId store p.id = true
  · rw [upsertOne_eq_overwrite store p hp, hasId_overwritePoint]; exact h
  · simp only [upsertOne, hp, if_false]
    simp only [hasId, List.any_append] at h ⊢
    simp [h]

/-- A batch upsert never removes a stored id. -/
theorem hasId_upsertPoints_mono {V : Type} (ps : List (IndexPoint V))
    (store : List (IndexPoint V)) (i : Nat) (h : hasId store i = true) :
    hasId (upsertPoints store ps) i = true := by
  induction ps generalizing store with
  | nil => exact h
  | cons p ps ih => exact ih (upsertOne store p) (hasId_upsertOne_mono store p i h)

/-- After a batch upsert, every id of the batch is stored. -/
theorem hasId_upsertPoints_all {V : Type} (ps : List (IndexPoint V))
    (store : List (IndexPoint V)) :
    ∀ p ∈ ps, hasId (upsertPoints store ps) p.id = true := by
  induction ps generalizing store with
  | nil => intro p hp; cases hp
  | cons q ps ih =>
    intro p hp
    rcases List.mem_cons.mp hp with rfl | hp
    · exact hasId_upsertPoints_mono ps (upsertOne store p) p.id (hasId_upsertOne_self store p)
    · exact ih (upsertOne store q) p hp

/-- A map whose function fixes every element of the list is the
identity on that list. -/
theorem map_fixpoints {α : Type} (f : α → α) (t : List α) (h : ∀ e ∈ t, f e = e) :
    t.map f = t := by
  induction t with
  | nil => rfl
  | cons a t ih =>
    simp only [List.map_cons, h a (List.mem_cons_self a t)]
    rw [ih (fun e he => h e (List.mem_cons_of_mem a he))]

/-- Two maps agree when their functions agree on the list. -/
theorem mapCongrMem {α β : Type} (f g : α → β) (t : List α) (h : ∀ e ∈ t, f e = g e) :
    t.map f = t.map g := by
  induction t with
  | nil => rfl
  | cons a t ih =>
    simp only [List.map_cons, h a (List.mem_cons_self a t)]
    rw [ih (fun e he => h e (List.mem_cons_of_mem a he))]

/-- When every id of the batch is already stored, the batch upsert is a
pure sequence of in-place overwrites. -/
theorem upsertPoints_eq_overwrites {V : Type} (ps : List (IndexPoint V))
    (store : List (IndexPoint V)) (h : ∀ p ∈ ps, hasId store p.id = true) :
    upsertPoints store ps = ps.foldl overwritePoint store := by
  induction ps generalizing store with
  | nil => rfl
  | cons q ps ih =>
    show upsertPoints (upsertOne store q) ps = ps.foldl overwritePoint (overwritePoint store q)
    rw [upsertOne_eq_overwrite store q (h q (List.mem_cons_self q ps))]
    exact ih (overwritePoint store q) (fun p hp => by
      rw [hasId_overwritePoint]
      exact h p (List.mem_cons_of_mem q hp))

/-- Overwriting by `p` then resolving the rest of the batch is resolving
the batch `p :: ps`. -/
theorem resolveLast_overwrite {V : Type} (ps : List (IndexPoint V)) (p e : IndexPoint V) :
    resolveLast ps (if e.id == p.id then p else e) = resolveLast (p :: ps) e := by
  by_cases h : e.id = p.id
  · cases hl : lastWithId ps p.id with
    | some q => simp [resolveLast, lastWithId, h, hl]
    | none => simp [resolveLast, lastWithId, h, hl]
  · cases hl : lastWithId ps e.id with
    | some q => simp [resolveLast, lastWithId, h, hl]
    | none => simp [resolveLast, lastWithId, h, hl, Ne.symm h]

/-- A sequence of in-place overwrites resolves every stored point to the
batch's winner for its id. -/
theorem foldl_overwrite_eq_map {V : Type} (ps : List (IndexPoint V))
    (t : List (IndexPoint V)) :
    ps.foldl overwritePoint t = t.map (resolveLast ps) := by
  induction ps generalizing t with
  | nil => exact (map_fixpoints _ t (fun e _ => rfl)).symm
  | cons p ps ih =>
    show ps.foldl overwritePoint (overwritePoint t p) = t.map (resolveLast (p :: ps))
    rw [ih (overwritePoint t p)]
    unfold overwritePoint
    rw [List.map_map]
    exact mapCongrMem _ _ t (fun e _ => resolveLast_overwrite ps p e)

/-- The winner of a snoc batch: the appended point if the id matches,
else the winner of the front. -/
theorem lastWithId_append_single {V : Type} (ps : List (IndexPoint V)) (p : IndexPoint V)
    (i : Nat) : lastWithId (ps ++ [p]) i = if p.id == i then some p else lastWithId ps i := by
  induction ps with
  | nil => simp [lastWithId]
  | cons q ps ih =>
    by_cases h : p.id = i <;>
      cases hl : lastWithId ps i <;>
        simp_all [lastWithId]

/-- Every point stored after a batch upsert already equals the batch's
winner for its id: a second pass of the same batch changes nothing. -/
theorem resolveLast_upsert_fix {V : Type} (ps : List (IndexPoint V))
    (store : List (IndexPoint V)) :
    ∀ e ∈ upsertPoints store ps, resolveLast ps e = e := by
  induction ps using List.reverseRecOn with
  | nil => intro e _; rfl
  | append_singleton ps p ih =>
    intro e he
    have hsnoc : upsertPoints store (ps ++ [p]) = upsertOne (upsertPoints store ps) p := by
      simp [upsertPoints, List.foldl_append]
    rw [hsnoc] at he
    unfold upsertOne at he
    by_cases hp : hasId (upsertPoints store ps) p.id = true
    · rw [if_pos hp] at he
      obtain ⟨x, hx, hxe⟩ := List.mem_map.mp he
      by_cases hxid : x.id = p.id
      · have hep : e = p := by rw [← hxe]; simp [hxid]
        subst hep
        simp [resolveLast, lastWithId_append_single]
      · have hex : e = x := by rw [← hxe]; simp [hxid]
        subst hex
        have hxp : (p.id == e.id) = false := by
          simp only [beq_eq_false_iff_ne, ne_eq]
          exact fun hh => hxid hh.symm
        simp only [resolveLast, lastWithId_append_single, hxp, if_false]
        exact ih e hx
    · rw [if_neg hp] at he
      rcases List.mem_append.mp he with he1 | he1
      · have hne : (p.id == e.id) = false := by
          simp only [beq_eq_false_iff_ne, ne_eq]
          intro hh
          apply hp
          simp only [hasId, List.any_eq_true]
          exact ⟨e, he1, by simp [hh]⟩
        simp only [resolveLast, lastWithId_append_single, hne, if_false]
        exact ih e he1
      · have hep : e = p := by simpa using he1
        subst hep
        simp [resolveLast, lastWithId_append_single]

/-- A batch upsert of the very same batch is idempotent. -/
theorem upsertPoints_idem {V : Type} (store : List (IndexPoint V))
    (ps : List (IndexPoint V)) :
    upsertPoints (upsertPoints store ps) ps = upsertPoints store ps := by
  rw [upsertPoints_eq_overwrites ps (upsertPoints store ps) (hasId_upsertPoints_all ps store)]
  rw [foldl_overwrite_eq_map]
  exact map_fixpoints _ _ (resolveLast_upsert_fix ps store)

/-- C4: every point built by add_documents carries an id that is the
content-addressed function of its own payload's (url, doc_index,
chunk_index, text) — so ids are deterministic — and upserting the same
batch again returns the identical store: re-ingesting the same records
leaves the store, hence its entry count and every stored text,
unchanged. -/
theorem ingest_idempotent {V : Type} (split : String → List String) (embed : String → V)
    (md5hex : String → String) (records : List DocRecord) (store : List (IndexPoint V)) :
    (∀ p ∈ VectorStore.build_points split embed md5hex records,
      p.id = pointId md5hex p.payload.url p.payload.doc_index p.payload.chunk_index
        p.payload.text) ∧
    VectorStore.add_documents split embed md5hex records
        (VectorStore.add_documents split embed md5hex records store) =
      VectorStore.add_documents split embed md5hex records store ∧
    (VectorStore.add_documents split embed md5hex records
        (VectorStore.add_documents split embed md5hex records store)).length =
      (VectorStore.add_documents split embed md5hex records store).length := by
  have hidem : VectorStore.add_documents split embed md5hex records
      (VectorStore.add_documents split embed md5hex records store) =
      VectorStore.add_documents split embed md5hex records store :=
    upsertPoints_idem store (VectorStore.build_points split embed md5hex records)
  refine ⟨?_, hidem, by rw [hidem]⟩
  intro p hp
  simp only [VectorStore.build_points, List.mem_flatten, List.mem_map] at hp
  obtain ⟨l, ⟨de, hde, rfl⟩, hpl⟩ := hp
  by_cases hc : de.2.content.getD "" = ""
  · simp [hc] at hpl
  · simp only [hc, if_neg, if_false] at hpl
    obtain ⟨ce, hce, rfl⟩ := List.mem_map.mp hpl
    rfl
